import Mathlib

/-!
Shallow embedding of the document merge / link-remapping worker
(`src/workers/mupdf.worker.ts`, class `MupdfWorker`) of the
document-tools-join repository.

The PDF toolkit (mupdf) is the external collaborator: a source document is
modelled by the observations the worker makes of it through the toolkit
(page count, per-page link annotations with bounds/URI/externality, the
page's `Annots` array entries, extractable text, rotation metadata), plus
failure flags standing for the toolkit call on that object throwing
(`openFails` for `openDocument`, `graftFails` for `graftPage`, `graftOk`
for `graftObject` on one annotation) and `openDuration` standing for the
wall-clock time the synchronous open call takes.  The open blocks the
worker thread for that long; no code path consults the duration, because
the timeout guard wraps a promise that is already settled when its timer
is armed (see `openDocumentWithTimeout`).

The worker's output document is modelled as the list of its pages, each
carrying the page's `Annots` list: link annotations written through
`insertLink` and non-link annotations written through
`put('Annots', filteredAnnots)`.  Handle lifecycle (which document handles
were opened / destroyed) is recorded alongside the result.
-/

namespace DocJoin

/-- A bounding box as returned by `link.getBounds()`: `[x0, y0, x1, y1]`. -/
structure Quad where
  x0 : Int
  y0 : Int
  x1 : Int
  y1 : Int
deriving DecidableEq

/-- One link annotation of a source page, as observed through the toolkit:
`link.isExternal()`, `link.getURI()` (the empty string models a null URI)
and `link.getBounds()`. -/
structure Link where
  external : Bool
  uri : String := ""
  bounds : Quad := ⟨0, 0, 0, 0⟩
deriving DecidableEq

/-- One entry of a source page's `Annots` array, as observed through the
toolkit: `annotRef.isIndirect()`, whether `annotRef.resolve()` is a
dictionary, its `Subtype` (`none` models a missing `Subtype` or one that is
not a name), and whether `mergedDoc.graftObject(annotRef)` succeeds
(`graftOk = false` models the per-annotation `try` block throwing). -/
structure Annot where
  indirect : Bool := true
  isDict : Bool := true
  subtype : Option String := none
  graftOk : Bool := true
deriving DecidableEq

/-- One page of a source document: extractable text, `Rotate` metadata,
link annotations, the `Annots` array, the toolkit's rendering of the page
(opaque to the worker; used only by `renderFirstPage`), and whether
`mergedDoc.graftPage(-1, src, i)` throws on this page. -/
structure SrcPage where
  text : String := ""
  rotation : Nat := 0
  links : List Link := []
  annots : List Annot := []
  render : String := ""
  graftFails : Bool := false
deriving DecidableEq

/-- One source document buffer: whether `PDFDocument.openDocument` throws on
it, how long the open call takes (milliseconds), and its pages. -/
structure SrcDoc where
  openFails : Bool := false
  openDuration : Nat := 0
  pages : List SrcPage := []
deriving DecidableEq

/-- `const OPEN_DOCUMENT_TIMEOUT = 10000` (mupdf.worker.ts line 9). -/
def OPEN_DOCUMENT_TIMEOUT : Nat := 10000

/-- Outcome of a document-open call.  `timedOut` models `withTimeout`'s
reject path (lines 17-19); the callers' handling of it is translated
faithfully below, but no open ever produces it: the open is synchronous,
so the promise `withTimeout` races against the timer is already
settled. -/
inductive OpenOutcome where
  | opened
  | openError
  | timedOut
deriving DecidableEq

/-- `mupdf.PDFDocument.openDocument(buffer, 'application/pdf')`: the bare
toolkit open, no timeout guard (used directly by `rotateDocument`,
line 281).  It throws iff the buffer is unreadable; its duration is
irrelevant because nothing bounds it. -/
def openDocument (d : SrcDoc) : OpenOutcome :=
  if d.openFails then .openError else .opened

/-- `openDocumentWithTimeout` (lines 46-51):
`withTimeout(Promise.resolve(mupdf.PDFDocument.openDocument(...)), 10000)`.
`openDocument` is synchronous (`rotateDocument`, line 281, uses its result
with no `await`), so it runs to completion — however long that takes —
while the argument of `withTimeout` is evaluated: an open that throws
rejects the call with that error before any timer exists, and an open
that returns hands `withTimeout` an already-settled promise, whose `.then`
continuation (a microtask) runs before the 10000 ms timer (a macrotask)
fires and clears it.  The guard therefore returns exactly the bare open's
outcome, whatever `openDuration` is; its `.timedOut` rejection is
unreachable. -/
def openDocumentWithTimeout (d : SrcDoc) : OpenOutcome :=
  openDocument d

/-- The characters of the literal `#page=` searched for by
`uri.includes('#page=')` and the regex `/#page=(\d+)/`. -/
def pageFragChars : List Char := '#' :: 'p' :: 'a' :: 'g' :: 'e' :: '=' :: []

/-- Does `pat` occur at the head of `s`? -/
def matchesAt : List Char → List Char → Bool
  | [], _ => true
  | _ :: _, [] => false
  | c :: cs, d :: ds => c == d && matchesAt cs ds

/-- Value of a digit string, as `parseInt` reads it. -/
def natOfDigits (ds : List Char) : Nat :=
  ds.foldl (fun acc c => acc * 10 + (c.toNat - 48)) 0

/-- Scan for the first position where `#page=` is followed by at least one
digit, the way `/#page=(\d+)/` matches, and return `parseInt` of the
maximal digit run there. -/
def findPageRefAux : List Char → Option Nat
  | [] => none
  | c :: rest =>
    if matchesAt pageFragChars (c :: rest) then
      let ds := ((c :: rest).drop 6).takeWhile Char.isDigit
      if ds.isEmpty then findPageRefAux rest else some (natOfDigits ds)
    else findPageRefAux rest

/-- `uri.match(/#page=(\d+)/)` followed by `parseInt(pageMatch[1])`
(lines 115-118): `none` when the URI has no parseable page fragment (in
which case `uri.includes('#page=')` either fails too or finds only a
digit-less fragment, and the link is skipped). -/
def findPageRef (uri : String) : Option Nat :=
  findPageRefAux uri.toList

/-- `uri.replace(/#page=\d+/, "#page=" + newRef)` (lines 202-205): replace
the first parseable page fragment. -/
def replacePageRefAux (newRef : Nat) : List Char → List Char
  | [] => []
  | c :: rest =>
    if matchesAt pageFragChars (c :: rest) then
      let tail := (c :: rest).drop 6
      let ds := tail.takeWhile Char.isDigit
      if ds.isEmpty then c :: replacePageRefAux newRef rest
      else pageFragChars ++ (toString newRef).toList ++ tail.drop ds.length
    else c :: replacePageRefAux newRef rest

/-- String form of `replacePageRefAux`. -/
def replacePageRef (uri : String) (newRef : Nat) : String :=
  ⟨replacePageRefAux newRef uri.toList⟩

/-- `interface PageMapping` (lines 60-64). -/
structure PageMapping where
  docIndex : Nat
  originalPageIndex : Nat
  newPageIndex : Nat
deriving DecidableEq

/-- `interface InternalLink` (lines 68-73): the pending internal link
record collected at classification time. -/
structure InternalLink where
  newPageIndex : Nat
  bounds : Quad
  originalURI : String
  originalPageRef : Nat
deriving DecidableEq

/-- One entry of an output page's `Annots` list: either a link annotation
written by `insertLink` (carrying the stored rectangle, the URI string
written, and the toolkit's classification of that URI), or a non-link
annotation grafted by the annotation filter. -/
inductive OutAnnot where
  | link (bounds : Quad) (uri : String) (external : Bool)
  | copied (a : Annot)
deriving DecidableEq

/-- One page of the output document under construction. -/
structure OutPage where
  text : String
  rotation : Nat
  annots : List OutAnnot
deriving DecidableEq

/-- The single page of `PDFDocument.createBlankDocument()`: no text, no
annotations. -/
def blankPage : OutPage := ⟨"", 0, []⟩

/-- The rectangle stored for `insertLink({x: b0, y: b1, width: b2 - b0,
height: b3 - b1}, uri)` (lines 106-111 and 209-214): the toolkit turns the
metadata back into the rect `[x, y, x + width, y + height]`. -/
def linkRect (b : Quad) : Quad :=
  ⟨b.x0, b.y0, b.x0 + (b.x1 - b.x0), b.y0 + (b.y1 - b.y0)⟩

/-- Append a link annotation to a page, as `insertLink` does. -/
def addLink (pg : OutPage) (b : Quad) (u : String) (ext : Bool) : OutPage :=
  { pg with annots := pg.annots ++ [OutAnnot.link b u ext] }

/-- The `for (const link of links)` loop (lines 102-128) for one source
page grafted at `dstPageIndex`: external links are written immediately to
the destination page, internal links with a parseable `#page=` fragment
are collected, any other internal link is skipped.  Returns the link
annotations inserted into the destination page and the pending internal
links collected, in loop order. -/
def processLinks (dstPageIndex : Nat) : List Link → List OutAnnot × List InternalLink
  | [] => ([], [])
  | l :: rest =>
    let r := processLinks dstPageIndex rest
    if l.external then
      (OutAnnot.link (linkRect l.bounds) l.uri true :: r.1, r.2)
    else
      match findPageRef l.uri with
      | some n => (r.1, ⟨dstPageIndex, l.bounds, l.uri, n⟩ :: r.2)
      | none => r

/-- The copy condition of the `for (let j ...)` annotation loop
(lines 142-161): the entry is an indirect reference, resolves to a
dictionary, its subtype is not the name `Link`, and `graftObject` does not
throw on it. -/
def annotCopied (a : Annot) : Bool :=
  a.indirect && a.isDict && !(a.subtype == some "Link") && a.graftOk

/-- The `filteredAnnots` array built by the annotation loop. -/
def filterAnnots (annots : List Annot) : List Annot :=
  annots.filter annotCopied

/-- The `hasNonLinkAnnotations` flag: set iff at least one annotation was
pushed onto `filteredAnnots`. -/
def hasNonLinkAnnots (annots : List Annot) : Bool :=
  !(filterAnnots annots).isEmpty

/-- Lines 135-167: if the source page has a non-empty `Annots` array and
the filter kept at least one annotation, `dstPageObj.put('Annots',
filteredAnnots)` replaces the destination page's whole `Annots` list
(discarding any link annotations inserted earlier); otherwise the
destination page's `Annots` list is left as it is. -/
def applyAnnotsFilter (dstAnnots : List OutAnnot) (srcAnnots : List Annot) :
    List OutAnnot :=
  if srcAnnots.length > 0 then
    if hasNonLinkAnnots srcAnnots then (filterAnnots srcAnnots).map OutAnnot.copied
    else dstAnnots
  else dstAnnots

/-- The mutable state of the merge loop: the output document's pages, the
`pageMappings` table and the `internalLinks` list. -/
structure MergeState where
  pages : List OutPage
  mappings : List PageMapping
  internals : List InternalLink
deriving DecidableEq

/-- Body of the `for (let i ...)` page loop (lines 82-176) for one page
that grafts successfully: graft the page content (text, rotation; the
toolkit's `graftPage` does not copy the `Annots` array, which is why the
worker copies links and annotations itself), record the page mapping,
insert external links, collect internal links, run the annotation
filter. -/
def graftSrcPage (docIndex : Nat) (st : MergeState) (i : Nat) (p : SrcPage) :
    MergeState :=
  let dstPageIndex := st.pages.length
  let r := processLinks dstPageIndex p.links
  let dstAnnots := applyAnnotsFilter r.1 p.annots
  { pages := st.pages ++ [⟨p.text, p.rotation, dstAnnots⟩],
    mappings := st.mappings ++ [⟨docIndex, i, dstPageIndex⟩],
    internals := st.internals ++ r.2 }

/-- Errors a merge can end with. -/
inductive MergeError where
  | noDocuments
  | timeout (docIndex : Nat)
  | openFailure (docIndex : Nat)
  | graftFailure (docIndex pageIndex : Nat)
  | saveFailure
deriving DecidableEq

/-- The page loop over one source document: stops with `graftFailure` at
the first page whose `graftPage` call throws (the exception escapes the
loop; the inner `try` of lines 100-172 only guards the link/annotation
work, not the graft). -/
def graftDocPages (docIndex : Nat) :
    Nat → List SrcPage → MergeState → MergeState × Option MergeError
  | _, [], st => (st, none)
  | i, p :: rest, st =>
    if p.graftFails then (st, some (.graftFailure docIndex i))
    else graftDocPages docIndex (i + 1) rest (graftSrcPage docIndex st i p)

/-- Handle bookkeeping threaded through the document loop: indices of
source documents whose open returned a handle, and indices whose
`src.destroy()` (line 178) ran. -/
structure RunState where
  st : MergeState
  openedSrc : List Nat
  releasedSrc : List Nat
deriving DecidableEq

/-- The `for (let docIndex ...)` document loop (lines 77-179): open each
buffer through the timeout guard, graft its pages, destroy the source
handle after its last page.  An open error or a graft failure escapes the
loop at once (in particular `src.destroy()` of the document being
processed does not run on the graft-failure path); the timeout arm
translates how a `withTimeout` rejection would propagate, though the
settled promise makes that rejection unreachable. -/
def mergeDocsLoop : Nat → List SrcDoc → RunState → RunState × Option MergeError
  | _, [], rs => (rs, none)
  | docIndex, d :: rest, rs =>
    match openDocumentWithTimeout d with
    | .openError => (rs, some (.openFailure docIndex))
    | .timedOut => (rs, some (.timeout docIndex))
    | .opened =>
      let rs1 : RunState := ⟨rs.st, rs.openedSrc ++ [docIndex], rs.releasedSrc⟩
      match graftDocPages docIndex 0 d.pages rs1.st with
      | (st1, some e) => (⟨st1, rs1.openedSrc, rs1.releasedSrc⟩, some e)
      | (st1, none) =>
          mergeDocsLoop (docIndex + 1) rest
            ⟨st1, rs1.openedSrc, rs1.releasedSrc ++ [docIndex]⟩

/-- Replace the page at index `i` (out-of-range indices change nothing,
as the guarded `loadPage` would throw into the per-link `catch`). -/
def updatePage : List OutPage → Nat → (OutPage → OutPage) → List OutPage
  | [], _, _ => []
  | p :: rest, 0, f => f p :: rest
  | p :: rest, n + 1, f => p :: updatePage rest n f

/-- Resolution of one pending internal link (lines 184-226): find the
mapping of the hosting page, then the mapping of the target page in the
same source document (`originalPageRef - 1` converts the 1-indexed URI
reference to a 0-indexed page); on success substitute
`targetMapping.newPageIndex + 1` into the URI's page fragment and insert
the link on the hosting output page; otherwise drop the link. -/
def resolveInternal (mappings : List PageMapping) (pages : List OutPage)
    (il : InternalLink) : List OutPage :=
  match mappings.find? (fun m => m.newPageIndex == il.newPageIndex) with
  | none => pages
  | some sm =>
    match mappings.find? (fun m =>
        m.docIndex == sm.docIndex &&
        ((m.originalPageIndex : Int) == (il.originalPageRef : Int) - 1)) with
    | none => pages
    | some tm =>
      let newURI := replacePageRef il.originalURI (tm.newPageIndex + 1)
      updatePage pages il.newPageIndex
        (fun pg => addLink pg (linkRect il.bounds) newURI false)

/-- The `for (const internalLink of internalLinks)` resolution pass. -/
def resolveInternals (mappings : List PageMapping) (pages : List OutPage)
    (ils : List InternalLink) : List OutPage :=
  ils.foldl (resolveInternal mappings) pages

/-- The test `text.trim() === ""` of line 233: a string trims to the empty
string exactly when every one of its characters is whitespace. -/
def trimsToEmpty (s : String) : Bool :=
  s.toList.all Char.isWhitespace

/-- Lines 229-239: if the document is non-empty and the first page has no
extractable text (the leftover page of `createBlankDocument`), delete
it. -/
def removeLeadingBlank : List OutPage → List OutPage
  | [] => []
  | p :: rest => if trimsToEmpty p.text then rest else p :: rest

/-- What a call to `mergeDocuments` leaves behind: the serialized result
(or the error thrown), which source handles were opened and released, and
whether the output document was created and destroyed. -/
structure MergeRun where
  result : Except MergeError (List OutPage)
  openedSrc : List Nat
  releasedSrc : List Nat
  outputCreated : Bool
  outputReleased : Bool

/-- `MupdfWorker.mergeDocuments` (lines 53-246).  `saveOk = false` models
`mergedDoc.saveToBuffer(COMPRESSION_OPTIONS)` throwing.  The `finally`
block destroys the output document on every path after its creation. -/
def mergeDocuments (documents : List SrcDoc) (saveOk : Bool) : MergeRun :=
  if documents.length == 0 then
    ⟨.error .noDocuments, [], [], false, false⟩
  else
    match mergeDocsLoop 0 documents ⟨⟨[blankPage], [], []⟩, [], []⟩ with
    | (rs, some e) => ⟨.error e, rs.openedSrc, rs.releasedSrc, true, true⟩
    | (rs, none) =>
      let pages1 := resolveInternals rs.st.mappings rs.st.pages rs.st.internals
      let pages2 := removeLeadingBlank pages1
      if saveOk then ⟨.ok pages2, rs.openedSrc, rs.releasedSrc, true, true⟩
      else ⟨.error .saveFailure, rs.openedSrc, rs.releasedSrc, true, true⟩

/-- `page.rotate(90)` (line 285): add a quarter turn to the page's
rotation metadata; nothing else of the page changes. -/
def rotatePage (p : SrcPage) : SrcPage :=
  { p with rotation := (p.rotation + 90) % 360 }

/-- The single error `rotateDocument` rethrows (line 293). -/
inductive RotateError where
  | failed
deriving DecidableEq

/-- What a call to `rotateDocument` leaves behind. -/
structure RotateRun where
  result : Except RotateError (List SrcPage)
  opened : Bool
  released : Bool

/-- `MupdfWorker.rotateDocument` (lines 279-295): the open is the bare
`openDocument`, not the timeout guard; every page is rotated by 90
degrees clockwise; `doc.destroy()` runs only after `saveToBuffer`
succeeds (a save failure reaches the `catch` with the handle still
open). -/
def rotateDocument (d : SrcDoc) (saveOk : Bool) : RotateRun :=
  match openDocument d with
  | .openError => ⟨.error .failed, false, false⟩
  | .timedOut => ⟨.error .failed, false, false⟩
  | .opened =>
    if saveOk then ⟨.ok (d.pages.map rotatePage), true, true⟩
    else ⟨.error .failed, true, false⟩

/-- Errors `renderFirstPage` can end with. -/
inductive RenderError where
  | timeout
  | openFailure
  | renderFailure
deriving DecidableEq

/-- `MupdfWorker.renderFirstPage` (lines 248-277): open through the
timeout guard, render page 0 through the toolkit (the pixmap/base64
pipeline is the collaborator's; its output is the page's opaque `render`
string), fail if the document has no page 0. -/
def renderFirstPage (d : SrcDoc) : Except RenderError String :=
  match openDocumentWithTimeout d with
  | .openError => .error .openFailure
  | .timedOut => .error .timeout
  | .opened =>
    match d.pages with
    | [] => .error .renderFailure
    | p :: _ => .ok ("data:image/png;base64," ++ p.render)

/-! ### Observation measures on documents -/

/-- Is this output annotation a link annotation whose URI the toolkit
classifies as external? -/
def isExtLinkAnnot : OutAnnot → Bool
  | .link _ _ ext => ext
  | .copied _ => false

/-- Is this output annotation a non-link annotation copied by the
annotation filter? -/
def isCopiedAnnot : OutAnnot → Bool
  | .copied _ => true
  | .link _ _ _ => false

/-- External links on one output page. -/
def pageExtLinkCount (p : OutPage) : Nat :=
  (p.annots.filter isExtLinkAnnot).length

/-- External links in the whole output document. -/
def outExtLinkCount (pgs : List OutPage) : Nat :=
  (pgs.map pageExtLinkCount).sum

/-- External links on one source page. -/
def srcPageExtLinkCount (p : SrcPage) : Nat :=
  (p.links.filter Link.external).length

/-- External links in all source documents together. -/
def srcExtLinkCount (docs : List SrcDoc) : Nat :=
  (docs.map (fun d => (d.pages.map srcPageExtLinkCount).sum)).sum

/-- Copied (non-link) annotations on one output page. -/
def pageCopiedCount (p : OutPage) : Nat :=
  (p.annots.filter isCopiedAnnot).length

/-- Copied (non-link) annotations in the whole output document. -/
def outCopiedCount (pgs : List OutPage) : Nat :=
  (pgs.map pageCopiedCount).sum

/-- Annotations of one source page whose subtype is not the name `Link`. -/
def srcPageNonLinkCount (p : SrcPage) : Nat :=
  (p.annots.filter (fun a => !(a.subtype == some "Link"))).length

/-- Non-link annotations in all source documents together. -/
def srcNonLinkCount (docs : List SrcDoc) : Nat :=
  (docs.map (fun d => (d.pages.map srcPageNonLinkCount).sum)).sum

/-- Annotations of one source page that satisfy the filter's copy
condition. -/
def srcPageCopyableCount (p : SrcPage) : Nat :=
  (filterAnnots p.annots).length

/-- Copy-condition-satisfying annotations in all source documents. -/
def srcCopyableCount (docs : List SrcDoc) : Nat :=
  (docs.map (fun d => (d.pages.map srcPageCopyableCount).sum)).sum

/-- The 1-indexed page references carried by the internal (non-external)
link annotations of one output page, read back the way the repository's
own integration test reads them (parse the `#page=` fragment of the
URI). -/
def pageInternalTargets (p : OutPage) : List Nat :=
  p.annots.filterMap (fun a =>
    match a with
    | .link _ u false => findPageRef u
    | _ => none)

/-- All internal-link page references of an output document. -/
def internalTargets (pgs : List OutPage) : List Nat :=
  (pgs.map pageInternalTargets).flatten

/-! ### Closed forms of the grafting loop -/

/-- The output page the page loop produces for a source page grafted at
destination index `dst`. -/
def graftedPage (dst : Nat) (p : SrcPage) : OutPage :=
  ⟨p.text, p.rotation, applyAnnotsFilter (processLinks dst p.links).1 p.annots⟩

/-- The output pages produced for one source document whose grafting
starts at destination index `dst`. -/
def graftedPages (dst : Nat) : List SrcPage → List OutPage
  | [] => []
  | p :: rest => graftedPage dst p :: graftedPages (dst + 1) rest

/-- The output pages produced for a list of source documents whose
grafting starts at destination index `dst`. -/
def mergedPagesOf (dst : Nat) : List SrcDoc → List OutPage
  | [] => []
  | d :: rest => graftedPages dst d.pages ++ mergedPagesOf (dst + d.pages.length) rest

lemma graftedPages_length (ps : List SrcPage) :
    ∀ dst, (graftedPages dst ps).length = ps.length := by
  induction ps with
  | nil => intro dst; rfl
  | cons p rest ih => intro dst; simp [graftedPages, ih]

lemma mergedPagesOf_length (docs : List SrcDoc) :
    ∀ dst, (mergedPagesOf dst docs).length =
      (docs.map (fun d => d.pages.length)).sum := by
  induction docs with
  | nil => intro dst; rfl
  | cons d rest ih =>
      intro dst
      simp [mergedPagesOf, graftedPages_length, ih]

lemma graftedPages_map {α : Type} (g : OutPage → α) (G : SrcPage → α)
    (h : ∀ dst p, g (graftedPage dst p) = G p) (ps : List SrcPage) :
    ∀ dst, (graftedPages dst ps).map g = ps.map G := by
  induction ps with
  | nil => intro dst; rfl
  | cons p rest ih => intro dst; simp [graftedPages, h, ih]

lemma mergedPagesOf_map {α : Type} (g : OutPage → α) (G : SrcPage → α)
    (h : ∀ dst p, g (graftedPage dst p) = G p) (docs : List SrcDoc) :
    ∀ dst, (mergedPagesOf dst docs).map g =
      (docs.map (fun d => d.pages.map G)).flatten := by
  induction docs with
  | nil => intro dst; rfl
  | cons d rest ih =>
      intro dst
      simp [mergedPagesOf, List.map_append, graftedPages_map g G h, ih]

lemma mergedPagesOf_sum (g : OutPage → Nat) (G : SrcPage → Nat)
    (h : ∀ dst p, g (graftedPage dst p) = G p) (docs : List SrcDoc) (dst : Nat) :
    ((mergedPagesOf dst docs).map g).sum =
      (docs.map (fun d => (d.pages.map G).sum)).sum := by
  rw [mergedPagesOf_map g G h]
  induction docs with
  | nil => rfl
  | cons d rest ih => simp [List.flatten, List.sum_append, ih]

lemma graftSrcPage_pages (docIndex : Nat) (st : MergeState) (i : Nat) (p : SrcPage) :
    (graftSrcPage docIndex st i p).pages =
      st.pages ++ [graftedPage st.pages.length p] := rfl

lemma graftDocPages_noFail (docIndex : Nat) (ps : List SrcPage) :
    ∀ (i : Nat) (st : MergeState), (∀ p ∈ ps, p.graftFails = false) →
    ∃ m ix, graftDocPages docIndex i ps st =
      (⟨st.pages ++ graftedPages st.pages.length ps, m, ix⟩, none) := by
  induction ps with
  | nil =>
      intro i st _
      exact ⟨st.mappings, st.internals, by simp [graftDocPages, graftedPages]⟩
  | cons p rest ih =>
      intro i st h
      have hp : p.graftFails = false := h p (by simp)
      have hrest : ∀ x ∈ rest, x.graftFails = false := fun x hx => h x (by simp [hx])
      obtain ⟨m, ix, heq⟩ := ih (i + 1) (graftSrcPage docIndex st i p) hrest
      refine ⟨m, ix, ?_⟩
      rw [graftDocPages, if_neg (by simp [hp]), heq]
      simp [graftSrcPage_pages, graftedPages, List.append_assoc]

lemma mergeDocsLoop_noFail (docs : List SrcDoc) :
    ∀ (k : Nat) (rs : RunState),
    (∀ d ∈ docs, d.openFails = false ∧ d.openDuration ≤ OPEN_DOCUMENT_TIMEOUT ∧
      ∀ p ∈ d.pages, p.graftFails = false) →
    ∃ m ix op rl, mergeDocsLoop k docs rs =
      (⟨⟨rs.st.pages ++ mergedPagesOf rs.st.pages.length docs, m, ix⟩, op, rl⟩, none) := by
  induction docs with
  | nil =>
      intro k rs _
      refine ⟨rs.st.mappings, rs.st.internals, rs.openedSrc, rs.releasedSrc, ?_⟩
      simp [mergeDocsLoop, mergedPagesOf]
  | cons d rest ih =>
      intro k rs h
      obtain ⟨h1, h2, h3⟩ := h d (by simp)
      have hrest : ∀ x ∈ rest, x.openFails = false ∧
          x.openDuration ≤ OPEN_DOCUMENT_TIMEOUT ∧
          ∀ p ∈ x.pages, p.graftFails = false := fun x hx => h x (by simp [hx])
      have hopen : openDocumentWithTimeout d = .opened := by
        simp [openDocumentWithTimeout, openDocument, h1]
      obtain ⟨m0, ix0, heq⟩ := graftDocPages_noFail k d.pages 0 rs.st h3
      obtain ⟨m, ix, op, rl, hrec⟩ :=
        ih (k + 1) ⟨⟨rs.st.pages ++ graftedPages rs.st.pages.length d.pages, m0, ix0⟩,
          rs.openedSrc ++ [k], rs.releasedSrc ++ [k]⟩ hrest
      refine ⟨m, ix, op, rl, ?_⟩
      rw [mergeDocsLoop, hopen]
      simp only [heq, hrec]
      simp [mergedPagesOf, graftedPages_length, List.append_assoc]

/-! ### The resolution pass changes no page's text, external-link count or
copied-annotation count: it only appends internal link annotations. -/

lemma updatePage_map {α : Type} (g : OutPage → α) (f : OutPage → OutPage)
    (hf : ∀ p, g (f p) = g p) (pgs : List OutPage) :
    ∀ i, (updatePage pgs i f).map g = pgs.map g := by
  induction pgs with
  | nil => intro i; rfl
  | cons p rest ih =>
      intro i
      cases i with
      | zero => simp [updatePage, hf]
      | succ n => simp [updatePage, ih]

lemma resolveInternal_map {α : Type} (g : OutPage → α)
    (hg : ∀ pg b u, g (addLink pg b u false) = g pg)
    (m : List PageMapping) (pgs : List OutPage) (il : InternalLink) :
    (resolveInternal m pgs il).map g = pgs.map g := by
  unfold resolveInternal
  split
  · rfl
  · split
    · rfl
    · exact updatePage_map g _ (fun p => hg p _ _) pgs il.newPageIndex

lemma resolveInternals_map {α : Type} (g : OutPage → α)
    (hg : ∀ pg b u, g (addLink pg b u false) = g pg)
    (m : List PageMapping) (ils : List InternalLink) :
    ∀ pgs, (resolveInternals m pgs ils).map g = pgs.map g := by
  induction ils with
  | nil => intro pgs; rfl
  | cons il rest ih =>
      intro pgs
      show (resolveInternals m (resolveInternal m pgs il) rest).map g = _
      rw [ih, resolveInternal_map g hg]

lemma text_addLink (pg : OutPage) (b : Quad) (u : String) (e : Bool) :
    (addLink pg b u e).text = pg.text := rfl

lemma pageExtLinkCount_addLink (pg : OutPage) (b : Quad) (u : String) :
    pageExtLinkCount (addLink pg b u false) = pageExtLinkCount pg := by
  simp [pageExtLinkCount, addLink, List.filter_append, isExtLinkAnnot]

lemma pageCopiedCount_addLink (pg : OutPage) (b : Quad) (u : String) :
    pageCopiedCount (addLink pg b u false) = pageCopiedCount pg := by
  simp [pageCopiedCount, addLink, List.filter_append, isCopiedAnnot]

lemma updatePage_forall (Q : OutPage → Prop) (f : OutPage → OutPage)
    (hf : ∀ p, Q p → Q (f p)) (pgs : List OutPage) :
    ∀ i, (∀ p ∈ pgs, Q p) → ∀ p ∈ updatePage pgs i f, Q p := by
  induction pgs with
  | nil => intro i _ p hp; cases hp
  | cons q rest ih =>
      intro i hall p hp
      cases i with
      | zero =>
          simp only [updatePage] at hp
          rcases List.mem_cons.mp hp with hp | hp
          · exact hp ▸ hf q (hall q (List.mem_cons_self q rest))
          · exact hall p (List.mem_cons_of_mem q hp)
      | succ n =>
          simp only [updatePage] at hp
          rcases List.mem_cons.mp hp with hp | hp
          · exact hp ▸ hall q (List.mem_cons_self q rest)
          · exact ih n (fun x hx => hall x (List.mem_cons_of_mem q hx)) p hp

lemma resolveInternal_forall (Q : OutPage → Prop)
    (hQ : ∀ pg b u, Q pg → Q (addLink pg b u false))
    (m : List PageMapping) (pgs : List OutPage) (il : InternalLink)
    (hall : ∀ p ∈ pgs, Q p) : ∀ p ∈ resolveInternal m pgs il, Q p := by
  unfold resolveInternal
  split
  · exact hall
  · split
    · exact hall
    · exact updatePage_forall Q _ (fun p hp => hQ p _ _ hp) pgs _ hall

lemma resolveInternals_forall (Q : OutPage → Prop)
    (hQ : ∀ pg b u, Q pg → Q (addLink pg b u false))
    (m : List PageMapping) (ils : List InternalLink) :
    ∀ pgs, (∀ p ∈ pgs, Q p) → ∀ p ∈ resolveInternals m pgs ils, Q p := by
  induction ils with
  | nil => intro pgs hall; exact hall
  | cons il rest ih =>
      intro pgs hall
      show ∀ p ∈ resolveInternals m (resolveInternal m pgs il) rest, Q p
      exact ih _ (resolveInternal_forall Q hQ m pgs il hall)

lemma removeLeadingBlank_sub (pgs : List OutPage) :
    ∀ p ∈ removeLeadingBlank pgs, p ∈ pgs := by
  cases pgs with
  | nil => intro p hp; cases hp
  | cons q rest =>
      intro p hp
      by_cases h : trimsToEmpty q.text = true
      · simp only [removeLeadingBlank, if_pos h] at hp
        exact List.mem_cons_of_mem q hp
      · simp only [removeLeadingBlank, if_neg h] at hp
        exact hp

/-! ### Closed forms of the per-page link and annotation processing -/

lemma linkRect_id (b : Quad) : linkRect b = b := by
  cases b
  simp [linkRect]

lemma processLinks_fst (dst : Nat) (links : List Link) :
    (processLinks dst links).1 =
      (links.filter Link.external).map
        (fun l => OutAnnot.link l.bounds l.uri true) := by
  induction links with
  | nil => rfl
  | cons l rest ih =>
      by_cases hl : l.external
      · simp [processLinks, hl, List.filter_cons, ih, linkRect_id]
      · cases hfind : findPageRef l.uri with
        | none => simp [processLinks, hl, hfind, List.filter_cons, ih]
        | some n => simp [processLinks, hl, hfind, List.filter_cons, ih]

lemma processLinks_snd (dst : Nat) (links : List Link) :
    (processLinks dst links).2 =
      links.filterMap (fun l =>
        if l.external then none
        else (findPageRef l.uri).map
          (fun n => (⟨dst, l.bounds, l.uri, n⟩ : InternalLink))) := by
  induction links with
  | nil => rfl
  | cons l rest ih =>
      by_cases hl : l.external
      · simp [processLinks, hl, List.filterMap_cons, ih]
      · cases hfind : findPageRef l.uri with
        | none => simp [processLinks, hl, hfind, List.filterMap_cons, ih]
        | some n => simp [processLinks, hl, hfind, List.filterMap_cons, ih]

lemma hasNonLinkAnnots_false_iff (s : List Annot) :
    hasNonLinkAnnots s = false ↔ filterAnnots s = [] := by
  simp [hasNonLinkAnnots, List.isEmpty_iff]

lemma applyAnnotsFilter_of_not_hasNonLink (d : List OutAnnot) (s : List Annot)
    (h : hasNonLinkAnnots s = false) : applyAnnotsFilter d s = d := by
  unfold applyAnnotsFilter
  by_cases hs : s.length > 0
  · simp [hs, h]
  · simp [hs]

lemma applyAnnotsFilter_of_hasNonLink (d : List OutAnnot) (s : List Annot)
    (h : hasNonLinkAnnots s = true) :
    applyAnnotsFilter d s = (filterAnnots s).map OutAnnot.copied := by
  have hne : filterAnnots s ≠ [] := by
    intro h0
    rw [hasNonLinkAnnots, h0] at h
    simp at h
  have hs : s.length > 0 := by
    cases s with
    | nil => exact absurd rfl hne
    | cons a rest => simp
  unfold applyAnnotsFilter
  simp [hs, h]

lemma pageExtLinkCount_graftedPage (dst : Nat) (p : SrcPage) :
    pageExtLinkCount (graftedPage dst p) =
      if hasNonLinkAnnots p.annots then 0 else srcPageExtLinkCount p := by
  by_cases h : hasNonLinkAnnots p.annots
  · rw [if_pos h]
    simp only [graftedPage, pageExtLinkCount,
      applyAnnotsFilter_of_hasNonLink _ _ h]
    induction filterAnnots p.annots with
    | nil => rfl
    | cons a rest ih => simp [isExtLinkAnnot, ih]
  · rw [if_neg h]
    simp only [graftedPage, pageExtLinkCount,
      applyAnnotsFilter_of_not_hasNonLink _ _ (by simpa using h),
      processLinks_fst]
    simp only [srcPageExtLinkCount]
    induction p.links with
    | nil => rfl
    | cons l rest ih =>
        by_cases hl : l.external
        · simpa [List.filter_cons, hl, isExtLinkAnnot] using ih
        · simpa [List.filter_cons, hl] using ih

lemma pageCopiedCount_graftedPage (dst : Nat) (p : SrcPage) :
    pageCopiedCount (graftedPage dst p) = srcPageCopyableCount p := by
  by_cases h : hasNonLinkAnnots p.annots
  · simp only [graftedPage, pageCopiedCount, srcPageCopyableCount,
      applyAnnotsFilter_of_hasNonLink _ _ h]
    induction filterAnnots p.annots with
    | nil => rfl
    | cons a rest ih => simpa [isCopiedAnnot] using ih
  · have h0 : filterAnnots p.annots = [] :=
      (hasNonLinkAnnots_false_iff _).mp (by simpa using h)
    simp only [graftedPage, pageCopiedCount, srcPageCopyableCount,
      applyAnnotsFilter_of_not_hasNonLink _ _ (by simpa using h),
      processLinks_fst, h0]
    induction p.links.filter Link.external with
    | nil => rfl
    | cons l rest ih => simp [isCopiedAnnot, ih]

lemma copied_mem_graftedPage (dst : Nat) (p : SrcPage) (a : Annot)
    (hmem : OutAnnot.copied a ∈ (graftedPage dst p).annots) :
    annotCopied a = true := by
  simp only [graftedPage] at hmem
  by_cases h : hasNonLinkAnnots p.annots
  · rw [applyAnnotsFilter_of_hasNonLink _ _ h] at hmem
    obtain ⟨b, hb, hba⟩ := List.mem_map.mp hmem
    cases hba
    exact (List.mem_filter.mp hb).2
  · rw [applyAnnotsFilter_of_not_hasNonLink _ _ (by simpa using h),
      processLinks_fst] at hmem
    obtain ⟨l, _, hla⟩ := List.mem_map.mp hmem
    cases hla

lemma graftedPages_mem (ps : List SrcPage) :
    ∀ dst pg, pg ∈ graftedPages dst ps → ∃ dst' p, pg = graftedPage dst' p := by
  induction ps with
  | nil => intro dst pg hpg; cases hpg
  | cons p rest ih =>
      intro dst pg hpg
      rcases List.mem_cons.mp hpg with h | h
      · exact ⟨dst, p, h⟩
      · exact ih (dst + 1) pg h

lemma mergedPagesOf_mem (docs : List SrcDoc) :
    ∀ dst pg, pg ∈ mergedPagesOf dst docs → ∃ dst' p, pg = graftedPage dst' p := by
  induction docs with
  | nil => intro dst pg h; cases h
  | cons d rest ih =>
      intro dst pg h
      rcases List.mem_append.mp h with h | h
      · exact graftedPages_mem d.pages dst pg h
      · exact ih _ pg h

/-- Hypothesis bundle of a fully successful merge: every source buffer
opens without error inside the timeout bound and every page grafts. -/
def docsOk (docs : List SrcDoc) : Prop :=
  ∀ d ∈ docs, d.openFails = false ∧ d.openDuration ≤ OPEN_DOCUMENT_TIMEOUT ∧
    ∀ p ∈ d.pages, p.graftFails = false

instance (docs : List SrcDoc) : Decidable (docsOk docs) := by
  unfold docsOk
  infer_instance

lemma trimsToEmpty_nil : trimsToEmpty "" = true := rfl

/-- Master description of a fully successful merge: the result is `ok`, its
pages' texts are the concatenation of the source pages' texts in request
order (the blank page is gone), the page count is the sum of the source
page counts, the external-link and copied-annotation counts are sums of
the per-source-page contributions, and every copied annotation satisfied
the filter's copy condition. -/
lemma mergeDocuments_noFail_spec (docs : List SrcDoc) (hne : docs ≠ [])
    (hok : docsOk docs) :
    ∃ pages, (mergeDocuments docs true).result = .ok pages ∧
      pages.map OutPage.text = (docs.map (fun d => d.pages.map SrcPage.text)).flatten ∧
      pages.length = (docs.map (fun d => d.pages.length)).sum ∧
      outExtLinkCount pages =
        (docs.map (fun d => (d.pages.map (fun p =>
          if hasNonLinkAnnots p.annots then 0 else srcPageExtLinkCount p)).sum)).sum ∧
      outCopiedCount pages = srcCopyableCount docs ∧
      ∀ pg ∈ pages, ∀ a : Annot, OutAnnot.copied a ∈ pg.annots →
        annotCopied a = true := by
  have h0 : ((docs.length == 0) : Bool) = false := by
    cases docs with
    | nil => exact absurd rfl hne
    | cons d rest => simp
  obtain ⟨m, ix, op, rl, hloop⟩ :=
    mergeDocsLoop_noFail docs 0 ⟨⟨[blankPage], [], []⟩, [], []⟩ hok
  dsimp only at hloop
  set M := mergedPagesOf 1 docs with hM
  have hM1 : mergedPagesOf ([blankPage] : List OutPage).length docs = M := by
    simp [hM]
  rw [hM1] at hloop
  set pages1 := resolveInternals m ([blankPage] ++ M) ix with hpages1
  have htext : pages1.map OutPage.text = "" :: M.map OutPage.text := by
    rw [hpages1, resolveInternals_map OutPage.text (fun pg b u => rfl)]
    simp [blankPage]
  have hext : pages1.map pageExtLinkCount = 0 :: M.map pageExtLinkCount := by
    rw [hpages1, resolveInternals_map pageExtLinkCount pageExtLinkCount_addLink]
    simp [blankPage, pageExtLinkCount]
  have hcop : pages1.map pageCopiedCount = 0 :: M.map pageCopiedCount := by
    rw [hpages1, resolveInternals_map pageCopiedCount pageCopiedCount_addLink]
    simp [blankPage, pageCopiedCount]
  have hq : ∀ pg ∈ pages1, ∀ a : Annot, OutAnnot.copied a ∈ pg.annots →
      annotCopied a = true := by
    rw [hpages1]
    apply resolveInternals_forall
      (fun pg => ∀ a : Annot, OutAnnot.copied a ∈ pg.annots → annotCopied a = true)
    · intro pg b u hpg a ha
      rcases List.mem_append.mp ha with h | h
      · exact hpg a h
      · simp at h
    · intro pg hpg a ha
      rcases List.mem_append.mp hpg with h | h
      · rcases List.mem_singleton.mp h with rfl
        cases ha
      · obtain ⟨dst', p, rfl⟩ := mergedPagesOf_mem docs 1 pg h
        exact copied_mem_graftedPage dst' p a ha
  obtain ⟨h1, t1, hp1⟩ : ∃ h1 t1, pages1 = h1 :: t1 := by
    cases hp : pages1 with
    | nil => rw [hp] at htext; cases htext
    | cons h1 t1 => exact ⟨h1, t1, rfl⟩
  rw [hp1, List.map_cons] at htext hext hcop
  injection htext with h1text t1text
  injection hext with h1ext t1ext
  injection hcop with h1cop t1cop
  have hremove : removeLeadingBlank pages1 = t1 := by
    rw [hp1, removeLeadingBlank, if_pos (by rw [h1text]; exact trimsToEmpty_nil)]
  have hresult : (mergeDocuments docs true).result = .ok t1 := by
    rw [mergeDocuments, if_neg (by simp [h0]), hloop]
    dsimp only
    rw [← hpages1, hremove]
    rfl
  refine ⟨t1, hresult, ?_, ?_, ?_, ?_, ?_⟩
  · rw [t1text, hM, mergedPagesOf_map OutPage.text SrcPage.text (fun dst p => rfl)]
  · have := congrArg List.length t1text
    simpa [hM, mergedPagesOf_length] using this
  · rw [outExtLinkCount, t1ext, hM,
      mergedPagesOf_sum pageExtLinkCount _ pageExtLinkCount_graftedPage]
  · rw [outCopiedCount, t1cop, hM,
      mergedPagesOf_sum pageCopiedCount _ pageCopiedCount_graftedPage]
    rfl
  · intro pg hpg
    exact hq pg (hp1 ▸ List.mem_cons_of_mem h1 hpg)

lemma graftDocPages_pages_forall (Q : OutPage → Prop)
    (hQ : ∀ dst p, Q (graftedPage dst p)) (docIndex : Nat) :
    ∀ (ps : List SrcPage) (i : Nat) (st : MergeState),
      (∀ pg ∈ st.pages, Q pg) →
      ∀ pg ∈ (graftDocPages docIndex i ps st).1.pages, Q pg := by
  intro ps
  induction ps with
  | nil => intro i st h; exact h
  | cons p rest ih =>
      intro i st h
      by_cases hf : p.graftFails = true
      · simp only [graftDocPages, if_pos hf]
        exact h
      · simp only [graftDocPages, if_neg hf]
        apply ih
        intro pg hpg
        rw [graftSrcPage_pages] at hpg
        rcases List.mem_append.mp hpg with h2 | h2
        · exact h pg h2
        · rcases List.mem_singleton.mp h2 with rfl
          exact hQ _ _

lemma mergeDocsLoop_pages_forall (Q : OutPage → Prop)
    (hQ : ∀ dst p, Q (graftedPage dst p)) :
    ∀ (docs : List SrcDoc) (k : Nat) (rs : RunState),
      (∀ pg ∈ rs.st.pages, Q pg) →
      ∀ pg ∈ (mergeDocsLoop k docs rs).1.st.pages, Q pg := by
  intro docs
  induction docs with
  | nil => intro k rs h; exact h
  | cons d rest ih =>
      intro k rs h
      simp only [mergeDocsLoop]
      cases openDocumentWithTimeout d with
      | openError => exact h
      | timedOut => exact h
      | opened =>
          dsimp only
          have hall := graftDocPages_pages_forall Q hQ k d.pages 0 rs.st h
          split
          · next st1 e heq =>
              rw [heq] at hall
              exact hall
          · next st1 heq =>
              rw [heq] at hall
              exact ih (k + 1) _ hall

/-- Every copied annotation on any page of any successful merge output was
an indirect reference (to a dictionary, passing the filter). -/
lemma mergeDocuments_copied_indirect (docs : List SrcDoc) (saveOk : Bool)
    (pages : List OutPage)
    (hres : (mergeDocuments docs saveOk).result = .ok pages) :
    ∀ pg ∈ pages, ∀ a : Annot, OutAnnot.copied a ∈ pg.annots →
      annotCopied a = true := by
  set Q : OutPage → Prop :=
    fun pg => ∀ a : Annot, OutAnnot.copied a ∈ pg.annots → annotCopied a = true
    with hQdef
  rw [mergeDocuments] at hres
  by_cases h0 : (docs.length == 0) = true
  · rw [if_pos h0] at hres
    cases hres
  · rw [if_neg h0] at hres
    rcases hloop : mergeDocsLoop 0 docs ⟨⟨[blankPage], [], []⟩, [], []⟩ with ⟨rs, err⟩
    rw [hloop] at hres
    cases err with
    | some e => cases hres
    | none =>
        have hinit : ∀ pg ∈ (⟨⟨[blankPage], [], []⟩, [], []⟩ : RunState).st.pages, Q pg := by
          intro pg hpg
          rcases List.mem_singleton.mp hpg with rfl
          intro a ha
          cases ha
        have hloopQ := mergeDocsLoop_pages_forall Q
          (fun dst p => fun a ha => copied_mem_graftedPage dst p a ha)
          docs 0 _ hinit
        rw [hloop] at hloopQ
        have hres2 := hres
        have hresolved : ∀ pg ∈ resolveInternals rs.st.mappings rs.st.pages rs.st.internals, Q pg := by
          apply resolveInternals_forall Q
          · intro pg b u hpg a ha
            rcases List.mem_append.mp ha with h2 | h2
            · exact hpg a h2
            · simp at h2
          · exact hloopQ
        have hfinal : ∀ pg ∈ removeLeadingBlank
            (resolveInternals rs.st.mappings rs.st.pages rs.st.internals), Q pg :=
          fun pg hpg => hresolved pg (removeLeadingBlank_sub _ pg hpg)
        cases saveOk with
        | false => cases hres2
        | true =>
            have : pages = removeLeadingBlank
                (resolveInternals rs.st.mappings rs.st.pages rs.st.internals) := by
              cases hres2
              rfl
            rw [this]
            exact hfinal

/-! ### Concrete documents used in claim-level evaluations -/

/-- A common bounding box. -/
def q10 : Quad := ⟨0, 0, 10, 10⟩

/-- One page whose only link is the internal self-reference `#page=1`. -/
def selfLinkDoc : SrcDoc :=
  { pages := [{ text := "hello",
                links := [{ external := false, uri := "#page=1", bounds := q10 }] }] }

/-- One page with one external link and one (indirect, widget) non-link
annotation. -/
def extAndWidgetDoc : SrcDoc :=
  { pages := [{ text := "x",
                links := [{ external := true, uri := "https://a.example", bounds := q10 }],
                annots := [{ subtype := some "Widget" }] }] }

/-- The external link of `extAndWidgetDoc`, alone on a page. -/
def extPage : SrcPage :=
  { text := "x", links := [{ external := true, uri := "https://a.example", bounds := q10 }] }

/-- A document whose single page is `extPage`. -/
def extOnlyDoc : SrcDoc := { pages := [extPage] }

/-- An internal link whose URI carries no `#page=` fragment. -/
def namedDestLink : Link := { external := false, uri := "#nameddest=intro", bounds := q10 }

/-- A document with `namedDestLink` on its only page. -/
def namedDestDoc : SrcDoc := { pages := [{ text := "y", links := [namedDestLink] }] }

/-- One page whose only Annots entry is a direct (non-indirect) widget
dictionary. -/
def directWidgetDoc : SrcDoc :=
  { pages := [{ text := "x",
                annots := [{ indirect := false, subtype := some "Widget" }] }] }

/-- One page with an indirect widget annotation. -/
def widgetDoc : SrcDoc :=
  { pages := [{ text := "w", annots := [{ subtype := some "Widget" }] }] }

/-- A document whose only page's graft throws. -/
def graftFailDoc : SrcDoc := { pages := [{ text := "g", graftFails := true }] }

/-- An ordinary one-page document. -/
def plainDoc : SrcDoc := { pages := [{ text := "p" }] }

/-- A one-page document whose synchronous open call takes 20000 ms, twice
the guard's bound. -/
def slowDoc : SrcDoc :=
  { openDuration := 20000, pages := [{ text := "s", render := "PNGDATA" }] }

/-- Two plain documents for witnesses. -/
def wDocA : SrcDoc := { pages := [{ text := "a1" }, { text := "a2" }] }

/-- Companion of `wDocA`. -/
def wDocB : SrcDoc := { pages := [{ text := "b1" }] }

/-- A one-page document with links, annotations and a rotation, for the
rotation witness. -/
def rotDoc : SrcDoc :=
  { pages := [{ text := "r", rotation := 270,
                links := [{ external := true, uri := "https://r.example", bounds := q10 }],
                annots := [{ subtype := some "Widget" }] }] }

/-! ### The claims -/

/-- C1.  The claim says every resolved internal link written by
`mergeDocuments` has a remapped 1-indexed target denoting a valid page of
the final serialized document, including after the leading blank page is
deleted.  The code violates it: merging the single one-page document
`selfLinkDoc`, whose only link targets page 1 of 1, produces a final
document with exactly one page whose link URI says `#page=2` — the remap
computed the 1-indexed target against the document before the blank page
at index 0 was deleted, so the written target's 0-indexed form `2 - 1 = 1`
is not `< 1`, the final page count.  The link dangles. -/
theorem c1_internal_link_dangles_after_blank_delete :
    (mergeDocuments [selfLinkDoc] true).result =
      .ok [⟨"hello", 0, [OutAnnot.link q10 "#page=2" false]⟩] ∧
    internalTargets [⟨"hello", 0, [OutAnnot.link q10 "#page=2" false]⟩] = [2] ∧
    ([(⟨"hello", 0, [OutAnnot.link q10 "#page=2" false]⟩ : OutPage)]).length = 1 ∧
    ¬(2 - 1 < 1) := by
  refine ⟨?_, by decide, rfl, by decide⟩
  rfl

/-- C2.  For every non-empty list of valid source documents (each opens in
time, every page grafts) and a successful save, the merged result's page
count is the sum of the sources' page counts; its pages are exactly the
concatenation of the source pages in order, so the initial blank page does
not appear. -/
theorem c2_output_page_count_is_sum (docs : List SrcDoc) (saveOk : Bool)
    (hne : docs ≠ []) (hok : docsOk docs) (hsave : saveOk = true) :
    ∃ pages, (mergeDocuments docs saveOk).result = .ok pages ∧
      pages.length = (docs.map (fun d => d.pages.length)).sum ∧
      pages.map OutPage.text = (docs.map (fun d => d.pages.map SrcPage.text)).flatten := by
  subst hsave
  obtain ⟨pages, hres, htext, hlen, _⟩ := mergeDocuments_noFail_spec docs hne hok
  exact ⟨pages, hres, hlen, htext⟩

/-- Witness for C2 at a concrete input: merging a 2-page and a 1-page
document yields 3 pages in request order. -/
theorem c2_output_page_count_is_sum_witness :
    ∃ pages, (mergeDocuments [wDocA, wDocB] true).result = .ok pages ∧
      pages.length = ([wDocA, wDocB].map (fun d => d.pages.length)).sum ∧
      pages.map OutPage.text =
        ([wDocA, wDocB].map (fun d => d.pages.map SrcPage.text)).flatten :=
  c2_output_page_count_is_sum [wDocA, wDocB] true (by decide) (by decide) rfl

/-- C3 counterexample.  The claim says every source page's external links
are written to the output page and the output's external-link total equals
the sources' total, including on pages that also carry non-link
annotations.  The code violates it: `extAndWidgetDoc` has one external
link and one copyable widget annotation on the same page; the annotation
filter's `put('Annots', filteredAnnots)` overwrites the page's `Annots`
array after the external link was inserted, so the merged output contains
the widget but zero external links. -/
theorem c3_external_link_clobbered_cex :
    srcExtLinkCount [extAndWidgetDoc] = 1 ∧
    (mergeDocuments [extAndWidgetDoc] true).result =
      .ok [⟨"x", 0, [OutAnnot.copied { subtype := some "Widget" }]⟩] ∧
    outExtLinkCount [⟨"x", 0, [OutAnnot.copied { subtype := some "Widget" }]⟩] = 0 := by
  refine ⟨by decide, ?_, by decide⟩
  rfl

/-- C3 amended.  On a page for which the annotation filter copies nothing
(`hasNonLinkAnnots` is false), the output page's annotation list is
exactly its external links, in order, each with the same bounding box and
the same URI; and a merge of valid sources all of whose pages copy no
non-link annotation conserves the external-link count. -/
theorem c3_external_links_preserved_amended :
    (∀ (dst : Nat) (p : SrcPage), hasNonLinkAnnots p.annots = false →
      applyAnnotsFilter (processLinks dst p.links).1 p.annots =
        (p.links.filter Link.external).map
          (fun l => OutAnnot.link l.bounds l.uri true)) ∧
    (∀ (docs : List SrcDoc) (saveOk : Bool), docs ≠ [] → docsOk docs →
      saveOk = true →
      (∀ d ∈ docs, ∀ p ∈ d.pages, hasNonLinkAnnots p.annots = false) →
      ∃ pages, (mergeDocuments docs saveOk).result = .ok pages ∧
        outExtLinkCount pages = srcExtLinkCount docs) := by
  constructor
  · intro dst p h
    rw [applyAnnotsFilter_of_not_hasNonLink _ _ h, processLinks_fst]
  · intro docs saveOk hne hok hsave hnl
    subst hsave
    obtain ⟨pages, hres, _, _, hext, _, _⟩ := mergeDocuments_noFail_spec docs hne hok
    refine ⟨pages, hres, ?_⟩
    rw [hext, srcExtLinkCount]
    congr 1
    apply List.map_congr_left
    intro d hd
    congr 1
    apply List.map_congr_left
    intro p hp
    rw [if_neg (by simp [hnl d hd p hp])]

/-- Witness for C3 amended at concrete inputs: a page carrying only one
external link keeps it with identical bounds and URI, and the merge of
`extOnlyDoc` conserves the external-link count. -/
theorem c3_external_links_preserved_amended_witness :
    (applyAnnotsFilter (processLinks 1 extPage.links).1 extPage.annots =
      (extPage.links.filter Link.external).map
        (fun l => OutAnnot.link l.bounds l.uri true)) ∧
    ∃ pages, (mergeDocuments [extOnlyDoc] true).result = .ok pages ∧
      outExtLinkCount pages = srcExtLinkCount [extOnlyDoc] :=
  ⟨c3_external_links_preserved_amended.1 1 extPage (by decide),
   c3_external_links_preserved_amended.2 [extOnlyDoc] true (by decide) (by decide)
     rfl (by decide)⟩

/-- C4 counterexample.  The claim says every link classified as internal
(not external) is recorded as a pending internal link, none discarded at
classification time.  The code violates it: `namedDestLink` is internal
(`external = false`) but its URI has no `#page=` fragment, so the
classification loop records nothing for it, and after the whole merge the
link is gone from the output page. -/
theorem c4_internal_link_discarded_cex :
    namedDestLink.external = false ∧
    (processLinks 1 [namedDestLink]).2 = [] ∧
    (mergeDocuments [namedDestDoc] true).result = .ok [⟨"y", 0, []⟩] := by
  refine ⟨rfl, rfl, ?_⟩
  rfl

/-- C4 amended.  The classification loop records exactly the non-external
links whose URI carries a parseable `#page=` fragment, each captured as a
pending record holding the hosting output page index, the link's bounding
box, the original URI and the parsed 1-indexed target; internal links
without such a fragment are discarded unrecorded. -/
theorem c4_pending_internal_links_amended (dst : Nat) (links : List Link) :
    (processLinks dst links).2 =
      links.filterMap (fun l =>
        if l.external then none
        else (findPageRef l.uri).map
          (fun n => (⟨dst, l.bounds, l.uri, n⟩ : InternalLink))) :=
  processLinks_snd dst links

/-- C5 counterexample.  The claim says every annotation whose subtype is
not `Link` is copied, so non-link counts are conserved.  The code violates
it: `directWidgetDoc` carries one widget annotation stored as a direct
dictionary (not an indirect reference); the filter only considers indirect
references, so the output carries zero copied annotations. -/
theorem c5_annot_conservation_cex :
    srcNonLinkCount [directWidgetDoc] = 1 ∧
    (mergeDocuments [directWidgetDoc] true).result = .ok [⟨"x", 0, []⟩] ∧
    outCopiedCount [(⟨"x", 0, []⟩ : OutPage)] = 0 := by
  refine ⟨by decide, ?_, by decide⟩
  rfl

/-- C5 amended.  In every fully successful merge the copied-annotation
count equals the number of source annotations satisfying the filter's copy
condition (indirect dictionary, subtype not `Link`, graft succeeded) —
an annotation whose graft fails is skipped alone, the page and merge
continue; no copied annotation has subtype `Link`; and when every non-link
source annotation satisfies the copy condition, the non-link count is
conserved. -/
theorem c5_annot_filter_amended (docs : List SrcDoc) (saveOk : Bool)
    (hne : docs ≠ []) (hok : docsOk docs) (hsave : saveOk = true) :
    ∃ pages, (mergeDocuments docs saveOk).result = .ok pages ∧
      outCopiedCount pages = srcCopyableCount docs ∧
      (∀ pg ∈ pages, ∀ a : Annot, OutAnnot.copied a ∈ pg.annots →
        ¬a.subtype = some "Link") ∧
      ((∀ d ∈ docs, ∀ p ∈ d.pages, ∀ an ∈ p.annots,
          ¬an.subtype = some "Link" → annotCopied an = true) →
        outCopiedCount pages = srcNonLinkCount docs) := by
  subst hsave
  obtain ⟨pages, hres, _, _, _, hcop, hmem⟩ := mergeDocuments_noFail_spec docs hne hok
  refine ⟨pages, hres, hcop, ?_, ?_⟩
  · intro pg hpg a ha hsub
    have h := hmem pg hpg a ha
    rw [annotCopied, hsub] at h
    simp at h
  · intro hall
    rw [hcop, srcCopyableCount, srcNonLinkCount]
    congr 1
    apply List.map_congr_left
    intro d hd
    congr 1
    apply List.map_congr_left
    intro p hp
    rw [srcPageCopyableCount, filterAnnots, srcPageNonLinkCount]
    congr 1
    apply List.filter_congr
    intro a ha
    by_cases hsub : a.subtype = some "Link"
    · simp [annotCopied, hsub]
    · have h1 : annotCopied a = true := hall d hd p hp a ha hsub
      rw [h1]
      simp [beq_iff_eq, hsub]

/-- Witness for C5 amended at a concrete input: one indirect widget
annotation survives the merge, counts conserved. -/
theorem c5_annot_filter_amended_witness :
    ∃ pages, (mergeDocuments [widgetDoc] true).result = .ok pages ∧
      outCopiedCount pages = srcCopyableCount [widgetDoc] ∧
      (∀ pg ∈ pages, ∀ a : Annot, OutAnnot.copied a ∈ pg.annots →
        ¬a.subtype = some "Link") ∧
      ((∀ d ∈ [widgetDoc], ∀ p ∈ d.pages, ∀ an ∈ p.annots,
          ¬an.subtype = some "Link" → annotCopied an = true) →
        outCopiedCount pages = srcNonLinkCount [widgetDoc]) :=
  c5_annot_filter_amended [widgetDoc] true (by decide) (by decide) rfl

/-- C6.  Merging an empty list fails with the no-documents error before any
work: no output document is created (hence none to release) and no source
is opened. -/
theorem c6_empty_input_rejected (saveOk : Bool) :
    mergeDocuments [] saveOk =
      ⟨.error .noDocuments, [], [], false, false⟩ := rfl

/-- C7.  The claim says every opened document handle is released on every
exit path.  The code violates it: when grafting the only page of
`graftFailDoc` throws, the source handle (index 0) was opened but
`src.destroy()` is never reached — only the output document's `finally`
runs; and when `rotateDocument`'s save throws, the document handle stays
open while the catch rethrows. -/
theorem c7_handle_leak_on_error_paths :
    ((mergeDocuments [graftFailDoc] true).result = .error (.graftFailure 0 0) ∧
     (mergeDocuments [graftFailDoc] true).openedSrc = [0] ∧
     (mergeDocuments [graftFailDoc] true).releasedSrc = [] ∧
     (mergeDocuments [graftFailDoc] true).outputReleased = true) ∧
    ((rotateDocument plainDoc false).result = .error .failed ∧
     (rotateDocument plainDoc false).opened = true ∧
     (rotateDocument plainDoc false).released = false) :=
  ⟨⟨rfl, rfl, rfl, rfl⟩, rfl, rfl, rfl⟩

/-- C8.  The claim (and the spec's Timeout Guard contract) says an open
exceeding the 10000 ms bound fails with a Timeout error.  The program can
never produce one: the open is synchronous, so the promise the guard
races is already settled when the timer is armed and the timer is cleared
before it can fire — and `rotateDocument` does not call the guard at all
(line 281).  Evaluating the embedding at `slowDoc`, whose open takes
20000 ms, all three exposed operations run to normal completion instead
of failing with a timeout. -/
theorem c8_no_timeout_ever_bug :
    OPEN_DOCUMENT_TIMEOUT < slowDoc.openDuration ∧
    (mergeDocuments [slowDoc] true).result = .ok [⟨"s", 0, []⟩] ∧
    renderFirstPage slowDoc = .ok "data:image/png;base64,PNGDATA" ∧
    (rotateDocument slowDoc true).result =
      .ok [{ text := "s", rotation := 90, render := "PNGDATA" }] := by
  refine ⟨by decide, ?_, ?_, ?_⟩
  · rfl
  · rfl
  · rfl

/-- C9.  When the document opens and the save succeeds, `rotateDocument`
returns all pages with rotation metadata advanced by a quarter turn
(90 degrees clockwise) and everything else of every page — links,
annotations, text — unchanged; in particular the page count is
preserved. -/
theorem c9_rotate_quarter_turn_preserves (d : SrcDoc) (saveOk : Bool)
    (hopen : d.openFails = false) (hsave : saveOk = true) :
    ∃ pages, (rotateDocument d saveOk).result = .ok pages ∧
      pages = d.pages.map rotatePage ∧
      pages.length = d.pages.length ∧
      pages.map SrcPage.links = d.pages.map SrcPage.links ∧
      pages.map SrcPage.annots = d.pages.map SrcPage.annots ∧
      pages.map SrcPage.text = d.pages.map SrcPage.text ∧
      pages.map SrcPage.rotation =
        d.pages.map (fun p => (p.rotation + 90) % 360) := by
  subst hsave
  have hbare : openDocument d = .opened := by simp [openDocument, hopen]
  refine ⟨d.pages.map rotatePage, ?_, rfl, by simp, ?_, ?_, ?_, ?_⟩
  · rw [rotateDocument, hbare]
    rfl
  · simp [rotatePage]
  · simp [rotatePage]
  · simp [rotatePage]
  · simp [rotatePage]

/-- Witness for C9 at a concrete one-page document with a link, a widget
annotation and rotation 270. -/
theorem c9_rotate_quarter_turn_preserves_witness :
    ∃ pages, (rotateDocument rotDoc true).result = .ok pages ∧
      pages = rotDoc.pages.map rotatePage ∧
      pages.length = rotDoc.pages.length ∧
      pages.map SrcPage.links = rotDoc.pages.map SrcPage.links ∧
      pages.map SrcPage.annots = rotDoc.pages.map SrcPage.annots ∧
      pages.map SrcPage.text = rotDoc.pages.map SrcPage.text ∧
      pages.map SrcPage.rotation =
        rotDoc.pages.map (fun p => (p.rotation + 90) % 360) :=
  c9_rotate_quarter_turn_preserves rotDoc true rfl rfl

/-- C10.  During annotation filtering, only entries that are indirect
references are considered: any annotation copied into an output page's
list (beyond what the page already held) is an indirect reference to a
dictionary that passed the filter; consequently every copied annotation of
any successful merge output is indirect; and when all of a page's non-link
annotations are direct dictionaries, the filter leaves the output page's
`Annots` list untouched (it is not rewritten at all, so the inserted links
survive). -/
theorem c10_direct_annots_omitted (dstAnnots : List OutAnnot)
    (srcAnnots : List Annot) :
    (∀ a : Annot, OutAnnot.copied a ∈ applyAnnotsFilter dstAnnots srcAnnots →
      OutAnnot.copied a ∈ dstAnnots ∨
        (a ∈ srcAnnots ∧ a.indirect = true ∧ a.isDict = true)) ∧
    ((∀ a ∈ srcAnnots, ¬a.subtype = some "Link" → a.indirect = false) →
      applyAnnotsFilter dstAnnots srcAnnots = dstAnnots) ∧
    (∀ (docs : List SrcDoc) (saveOk : Bool) (pages : List OutPage),
      (mergeDocuments docs saveOk).result = .ok pages →
      ∀ pg ∈ pages, ∀ a : Annot, OutAnnot.copied a ∈ pg.annots →
        a.indirect = true) := by
  refine ⟨?_, ?_, ?_⟩
  · intro a ha
    by_cases h : hasNonLinkAnnots srcAnnots
    · rw [applyAnnotsFilter_of_hasNonLink _ _ h] at ha
      obtain ⟨b, hb, hba⟩ := List.mem_map.mp ha
      cases hba
      have hfil := List.mem_filter.mp hb
      have hcop := hfil.2
      rw [annotCopied] at hcop
      simp only [Bool.and_eq_true] at hcop
      exact Or.inr ⟨hfil.1, hcop.1.1.1, hcop.1.1.2⟩
    · rw [applyAnnotsFilter_of_not_hasNonLink _ _ (by simpa using h)] at ha
      exact Or.inl ha
  · intro hdir
    apply applyAnnotsFilter_of_not_hasNonLink
    rw [hasNonLinkAnnots]
    have : filterAnnots srcAnnots = [] := by
      rw [filterAnnots, List.filter_eq_nil_iff]
      intro a ha hcop
      rw [annotCopied] at hcop
      simp only [Bool.and_eq_true] at hcop
      by_cases hsub : a.subtype = some "Link"
      · rw [hsub] at hcop
        simp at hcop
      · rw [hdir a ha hsub] at hcop
        simp at hcop
    rw [this]
    rfl
  · intro docs saveOk pages hres pg hpg a ha
    have h := mergeDocuments_copied_indirect docs saveOk pages hres pg hpg a ha
    rw [annotCopied] at h
    simp only [Bool.and_eq_true] at h
    exact h.1.1.1

/-- Witness for C10 at concrete inputs: a direct widget annotation is
omitted and leaves the destination annotation list (one inserted external
link) untouched, and a merged output's copied annotation is indirect. -/
theorem c10_direct_annots_omitted_witness :
    ((∀ a ∈ [({ indirect := false, subtype := some "Widget" } : Annot)],
        ¬a.subtype = some "Link" → a.indirect = false) →
      applyAnnotsFilter [OutAnnot.link q10 "https://a.example" true]
        [{ indirect := false, subtype := some "Widget" }] =
        [OutAnnot.link q10 "https://a.example" true]) ∧
    (∀ pg ∈ [(⟨"w", 0, [OutAnnot.copied { subtype := some "Widget" }]⟩ : OutPage)],
      ∀ a : Annot, OutAnnot.copied a ∈ pg.annots → a.indirect = true) := by
  constructor
  · exact (c10_direct_annots_omitted
      [OutAnnot.link q10 "https://a.example" true]
      [{ indirect := false, subtype := some "Widget" }]).2.1
  · exact (c10_direct_annots_omitted [] []).2.2 [widgetDoc] true
      [⟨"w", 0, [OutAnnot.copied { subtype := some "Widget" }]⟩] (by rfl)

end DocJoin
